import Mathlib

/-!
Shallow embedding of `merge_tb_data` (src/merge_tb_data.py), the dataset
reconciler of the Tuberculosis_Burden_by_Country repository, together with
proofs of the specified properties.

A pandas `DataFrame` is modelled as a list of column labels plus a list of
rows, where a row is a function from labels to cells; a cell is `none`
(pandas' missing marker `NA`/`NaN`) or a scalar value (string or integer).
A raw CSV file (`pd.read_csv` input) is the same with string-or-missing
fields; `load` models `read_csv` with its `dtype={...: int}` coercion of
the year column, which fails (as `read_csv` does) when a year field is
missing or not integer-coercible.  `Except.error` models the operation
aborting with no output file written; `Except.ok (t, s)` models success
with final table `t` and output file contents `s` (`to_csv`).
-/

/-- Values of a scalar cell, as they matter for the merge: strings and the
integer-coerced year column. -/
inductive Val where
  | str : String → Val
  | int : Int → Val
deriving DecidableEq

/-- One cell of a table: `none` is the missing marker (pandas `NA`). -/
abbrev Cell := Option Val

/-- One row of a table, indexed by column label.  Labels outside the
table's column list are never consulted. -/
abbrev Row := String → Cell

/-- A pandas DataFrame: ordered column labels and rows. -/
structure Table where
  cols : List String
  rows : List Row

/-- One row of a raw CSV file: a field is `none` when empty/absent. -/
abbrev RawRow := String → Option String

/-- A raw CSV file: header labels and rows. -/
structure RawTable where
  cols : List String
  rows : List RawRow

/-- Integer parsing of a decimal digit character. -/
def digitVal (c : Char) : Option Nat :=
  if c.toNat < 48 then none
  else if 57 < c.toNat then none
  else some (c.toNat - 48)

/-- Integer parsing of a nonempty digit string, most significant first. -/
def digitsToNat : List Char → Option Nat
  | [] => none
  | [c] => digitVal c
  | c :: cs =>
    match digitVal c, digitsToNat cs with
    | some d, some n => some (d * 10 ^ cs.length + n)
    | _, _ => none

/-- Model of `int(...)` coercion used by `read_csv(dtype={...: int})`:
an optional sign followed by decimal digits. -/
def parseInt (s : String) : Option Int :=
  match s.data with
  | '-' :: cs => (digitsToNat cs).map (fun n => -(n : Int))
  | '+' :: cs => (digitsToNat cs).map (fun n => (n : Int))
  | cs => (digitsToNat cs).map (fun n => (n : Int))

/-- Is this raw cell coercible to an integer (present and parseable)? -/
def intCoercible (x : Option String) : Bool :=
  match x with
  | none => false
  | some s => (parseInt s).isSome

/-- Monadic map over a list in `Except`, failing on the first failure,
as `read_csv` fails on the first bad field of a typed column. -/
def mapExcept (f : α → Except ε β) : List α → Except ε (List β)
  | [] => .ok []
  | a :: as => do
    let b ← f a
    let bs ← mapExcept f as
    return b :: bs

/-- Coerce one raw row: the designated year column must parse as an
integer (when that column exists in the file); all other fields are kept
as strings. -/
def loadRow (yearCol : String) (hasYear : Bool) (r : RawRow) : Except String Row :=
  if hasYear then
    match r yearCol with
    | none => .error ("Integer column " ++ yearCol ++ " has NA values")
    | some s =>
      match parseInt s with
      | none => .error ("invalid literal for int with base 10: " ++ s)
      | some n => .ok (fun c => if c = yearCol then some (.int n) else (r c).map .str)
  else .ok (fun c => (r c).map .str)

/-- Model of `pd.read_csv(path, dtype={yearCol: int})`: per-row coercion
of the year column; a `dtype` entry naming a column absent from the file
is silently ignored, as in pandas. -/
def load (yearCol : String) (t : RawTable) : Except String Table := do
  let rows ← mapExcept (loadRow yearCol (t.cols.contains yearCol)) t.rows
  return { cols := t.cols, rows := rows }

/-- The `column_mapping_new` dict of the source (csv1, the 2000-2023 data). -/
def column_mapping_new : List (String × String) :=
  [("country", "country"),
   ("iso2", "iso2"),
   ("iso3", "iso3"),
   ("iso_numeric", "iso_numeric"),
   ("g_whoregion", "region"),
   ("year", "year"),
   ("e_pop_num", "population"),
   ("e_inc_100k", "incidence_rate"),
   ("e_inc_100k_lo", "incidence_rate_lo"),
   ("e_inc_100k_hi", "incidence_rate_hi"),
   ("e_inc_num", "incidence_num"),
   ("e_inc_num_lo", "incidence_num_lo"),
   ("e_inc_num_hi", "incidence_num_hi"),
   ("e_tbhiv_prct", "hiv_in_tb_percent"),
   ("e_tbhiv_prct_lo", "hiv_in_tb_percent_lo"),
   ("e_tbhiv_prct_hi", "hiv_in_tb_percent_hi"),
   ("e_mort_exc_tbhiv_100k", "mort_rate_no_hiv"),
   ("e_mort_exc_tbhiv_100k_lo", "mort_rate_no_hiv_lo"),
   ("e_mort_exc_tbhiv_100k_hi", "mort_rate_no_hiv_hi"),
   ("c_cdr", "detection_rate"),
   ("c_cdr_lo", "detection_rate_lo"),
   ("c_cdr_hi", "detection_rate_hi")]

/-- The `column_mapping_old` dict of the source (csv2, the 1990-2013 data). -/
def column_mapping_old : List (String × String) :=
  [("Country or territory name", "country"),
   ("ISO 2-character country/territory code", "iso2"),
   ("ISO 3-character country/territory code", "iso3"),
   ("ISO numeric country/territory code", "iso_numeric"),
   ("Region", "region"),
   ("Year", "year"),
   ("Estimated total population number", "population"),
   ("Estimated incidence (all forms) per 100 000 population", "incidence_rate"),
   ("Estimated incidence (all forms) per 100 000 population, low bound", "incidence_rate_lo"),
   ("Estimated incidence (all forms) per 100 000 population, high bound", "incidence_rate_hi"),
   ("Estimated number of incident cases (all forms)", "incidence_num"),
   ("Estimated number of incident cases (all forms), low bound", "incidence_num_lo"),
   ("Estimated number of incident cases (all forms), high bound", "incidence_num_hi"),
   ("Estimated HIV in incident TB (percent)", "hiv_in_tb_percent"),
   ("Estimated HIV in incident TB (percent), low bound", "hiv_in_tb_percent_lo"),
   ("Estimated HIV in incident TB (percent), high bound", "hiv_in_tb_percent_hi"),
   ("Estimated mortality of TB cases (all forms, excluding HIV) per 100 000 population", "mort_rate_no_hiv"),
   ("Estimated mortality of TB cases (all forms, excluding HIV), per 100 000 population, low bound", "mort_rate_no_hiv_lo"),
   ("Estimated mortality of TB cases (all forms, excluding HIV), per 100 000 population, high bound", "mort_rate_no_hiv_hi"),
   ("Case detection rate (all forms), percent", "detection_rate"),
   ("Case detection rate (all forms), percent, low bound", "detection_rate_lo"),
   ("Case detection rate (all forms), percent, high bound", "detection_rate_hi")]

/-- The `final_columns` list of the source: the canonical column set, in
canonical order. -/
def final_columns : List String :=
  ["country", "iso2", "iso3", "iso_numeric", "region", "year", "population",
   "incidence_rate", "incidence_rate_lo", "incidence_rate_hi",
   "incidence_num", "incidence_num_lo", "incidence_num_hi",
   "hiv_in_tb_percent", "hiv_in_tb_percent_lo", "hiv_in_tb_percent_hi",
   "mort_rate_no_hiv", "mort_rate_no_hiv_lo", "mort_rate_no_hiv_hi",
   "detection_rate", "detection_rate_lo", "detection_rate_hi"]

/-- Rename one label through a mapping dict: exact (case-sensitive) key
match, unknown labels are left unchanged — exactly `df.rename(columns=...)`
restricted to keys present. -/
def mapName (m : List (String × String)) (c : String) : String :=
  match m.lookup c with
  | some v => v
  | none => c

/-- Model of `df.rename(columns={k: v for k, v in m if k in df.columns})`:
column labels are mapped; each row is re-keyed so that the value formerly
under `k` is now found under `mapName m k`. -/
def rename (m : List (String × String)) (t : Table) : Table :=
  { cols := t.cols.map (mapName m),
    rows := t.rows.map (fun r => fun c =>
      match t.cols.find? (fun k => mapName m k == c) with
      | some k => r k
      | none => r c) }

/-- Model of `df[col] = pd.NA` for one absent column: append the label and
give every row the missing marker there. -/
def padCol (t : Table) (c : String) : Table :=
  if t.cols.contains c then t
  else { cols := t.cols ++ [c],
         rows := t.rows.map (fun r => fun x => if x = c then none else r x) }

/-- Model of the source's padding loop: for each canonical column absent
from the frame, add it filled with the missing marker. -/
def pad (t : Table) : Table := final_columns.foldl padCol t

/-- Model of column projection `df[cs]`: the retained labels, in order. -/
def project (cs : List String) (t : Table) : Table :=
  { cols := cs, rows := t.rows }

/-- The join key of a row, as the list of its key-column cells. -/
def keyList (keys : List String) (r : Row) : List Cell := keys.map r

/-- Output label of a left (old) column under `pd.merge` suffixing: key
columns keep their name, other columns shared with the right frame get
the `_old` suffix. -/
def oldName (keys rightCols : List String) (c : String) : String :=
  if keys.contains c then c
  else if rightCols.contains c then c ++ "_old" else c

/-- Output label of a non-key right (new) column under `pd.merge`
suffixing: columns shared with the left frame get the `_new` suffix. -/
def newName (leftCols : List String) (c : String) : String :=
  if leftCols.contains c then c ++ "_new" else c

/-- One output row of the outer merge, built from an optional left row and
an optional right row (either may be absent for one-sided keys); absent
sides contribute the missing marker, and key columns take the value of
whichever side is present. -/
def outRow (leftCols rightCols keys : List String) (olr onr : Option Row) : Row :=
  fun c =>
    match leftCols.find? (fun k => oldName keys rightCols k == c) with
    | some k =>
      if keys.contains k then
        match olr with
        | some lr => lr k
        | none =>
          match onr with
          | some nr => nr k
          | none => none
      else
        match olr with
        | some lr => lr k
        | none => none
    | none =>
      match (rightCols.filter (fun k => !keys.contains k)).find?
          (fun k => newName leftCols k == c) with
      | some k =>
        match onr with
        | some nr => nr k
        | none => none
      | none => none

/-- Model of `pd.merge(left, right, on=keys, how='outer',
suffixes=('_old', '_new'))`: every left row paired with each right row of
equal key (missing keys match missing keys, as NaN keys do in pandas'
merge), unmatched rows of either side padded with the missing marker on
the other side.  The model carries no column dtypes, so it has no
counterpart of pandas' `ValueError` for merging an int64 key column
against an object one (as arises when one source's year column was
`dtype=int`-coerced and the other's is absent and hence pd.NA-padded);
theorems about successful runs therefore require both sources to carry
their year columns, keeping the key dtypes alike. -/
def mergeOuter (left right : Table) (keys : List String) : Table :=
  { cols :=
      left.cols.map (oldName keys right.cols) ++
      (right.cols.filter (fun c => !keys.contains c)).map (newName left.cols),
    rows :=
      left.rows.flatMap (fun lr =>
        match right.rows.filter (fun rr => keyList keys rr == keyList keys lr) with
        | [] => [outRow left.cols right.cols keys (some lr) none]
        | ms => ms.map (fun rr => outRow left.cols right.cols keys (some lr) (some rr))) ++
      (right.rows.filter (fun rr =>
        (left.rows.filter (fun lr => keyList keys lr == keyList keys rr)).isEmpty)).map
        (fun rr => outRow left.cols right.cols keys none (some rr)) }

/-- One column of a frame, `merged[c]`. -/
def getColumn (t : Table) (c : String) : List Cell := t.rows.map (fun r => r c)

/-- Model of `new.combine_first(old)`: elementwise, the new value where it
is not the missing marker, otherwise the old value. -/
def combine_first (nw old : List Cell) : List Cell :=
  List.zipWith (fun nv ov => match nv with | some v => some v | none => ov) nw old

/-- Model of column assignment `t[c] = vs`: replace the column if the
label exists, else append it. -/
def setCol (t : Table) (c : String) (vs : List Cell) : Table :=
  { cols := if t.cols.contains c then t.cols else t.cols ++ [c],
    rows := (t.rows.zip vs).map (fun p => fun x => if x = c then p.2 else p.1 x) }

/-- One iteration of the source's combine loop: skip the join keys,
otherwise `merged[col] = merged[col + '_new'].combine_first(merged[col + '_old'])`. -/
def combineStep (t : Table) (c : String) : Table :=
  if ["iso3", "year"].contains c then t
  else setCol t c (combine_first (getColumn t (c ++ "_new")) (getColumn t (c ++ "_old")))

/-- The source's combine loop over all canonical columns. -/
def combineAll (t : Table) : Table := final_columns.foldl combineStep t

/-- The effect of one combine iteration on a single row (the loop body is
elementwise: column `c` becomes new-then-old, other labels are untouched). -/
def combRowStep (c : String) (r : Row) : Row :=
  if ["iso3", "year"].contains c then r
  else fun x => if x = c then
    (match r (c ++ "_new") with
     | some v => some v
     | none => r (c ++ "_old"))
  else r x

/-- Lexicographic-by-code-point comparison of character lists (weak),
modelling Python string comparison used by `sort_values` on `iso3`. -/
def lexLe : List Char → List Char → Bool
  | [], _ => true
  | _ :: _, [] => false
  | a :: as, b :: bs =>
    if a.toNat = b.toNat then lexLe as bs else Nat.blt a.toNat b.toNat

/-- Lexicographic-by-code-point comparison of character lists (strict). -/
def lexLt : List Char → List Char → Bool
  | [], [] => false
  | [], _ :: _ => true
  | _ :: _, [] => false
  | a :: as, b :: bs =>
    if a.toNat = b.toNat then lexLt as bs else Nat.blt a.toNat b.toNat

/-- Weak lexicographic order on strings (Python `<=` on `str`). -/
def strLe (a b : String) : Bool := lexLe a.data b.data

/-- Strict lexicographic order on strings (Python `<` on `str`). -/
def strLt (a b : String) : Bool := lexLt a.data b.data

/-- Ordering of scalar values used by the sort: integers by value,
strings lexicographically (mixed kinds are ordered arbitrarily but
totally; the pipeline only compares like kinds). -/
def valLe : Val → Val → Bool
  | .int m, .int n => decide (m ≤ n)
  | .int _, .str _ => true
  | .str _, .int _ => false
  | .str a, .str b => strLe a b

/-- Ordering of cells used by the sort: missing markers sort last, as
`sort_values` puts NaN keys last (`na_position='last'`). -/
def cellLe : Cell → Cell → Bool
  | none, none => true
  | none, some _ => false
  | some _, none => true
  | some a, some b => valLe a b

/-- Row comparison of `sort_values(['iso3', 'year'])`: primarily by
`iso3`, then by `year`. -/
def rowLe (r1 r2 : Row) : Bool :=
  if r1 "iso3" = r2 "iso3" then cellLe (r1 "year") (r2 "year")
  else cellLe (r1 "iso3") (r2 "iso3")

/-- Model of `merged.sort_values(['iso3', 'year'])`. -/
def sort_values (t : Table) : Table :=
  { t with rows := List.insertionSort (fun a b => rowLe a b = true) t.rows }

/-- Model of `merged.fillna('')`: every missing marker in a cell of the
frame's columns becomes the empty string. -/
def fillna (t : Table) : Table :=
  { cols := t.cols,
    rows := t.rows.map (fun r => fun c =>
      if t.cols.contains c then
        match r c with
        | none => some (Val.str "")
        | some v => some v
      else r c) }

/-- Rendering of one cell for `to_csv`. -/
def renderCell : Cell → String
  | none => ""
  | some (.str s) => s
  | some (.int n) => toString n

/-- CSV field quoting, as `to_csv` quotes fields containing delimiters. -/
def escapeField (s : String) : String :=
  if s.data.contains ',' || s.data.contains '"' || s.data.contains '\n' then
    String.mk ('"' :: (s.data.flatMap (fun c => if c = '"' then ['"', '"'] else [c]) ++ ['"']))
  else s

/-- Comma-joined CSV record. -/
def csvLine : List String → String
  | [] => ""
  | [f] => f
  | f :: fs => f ++ "," ++ csvLine fs

/-- Model of `merged.to_csv(output_path, index=False)`: the header row of
column labels, then one line per row, in order. -/
def toCsv (t : Table) : String :=
  csvLine (t.cols.map escapeField) ++ "\n" ++
  String.join (t.rows.map (fun r =>
    csvLine (t.cols.map (fun c => escapeField (renderCell (r c)))) ++ "\n"))

/-- The new (csv1) frame after renaming, padding and projection — the left
operand preparation of the source, lines 60/74-77/82. -/
def prep_new (df : Table) : Table :=
  project final_columns (pad (rename column_mapping_new df))

/-- The old (csv2) frame after renaming, padding and projection — the
right operand preparation of the source, lines 61/74-77/81. -/
def prep_old (df : Table) : Table :=
  project final_columns (pad (rename column_mapping_old df))

/-- The pure reconciliation pipeline of `merge_tb_data` after loading:
rename, pad, outer-merge on `(iso3, year)`, combine preferring new data,
project to the canonical columns, sort, and fill missing markers. -/
def reconcile (df_new df_old : Table) : Table :=
  fillna (sort_values (project final_columns
    (combineAll (mergeOuter (prep_old df_old) (prep_new df_new) ["iso3", "year"]))))

/-- The whole operation `merge_tb_data(csv1_path, csv2_path, output_path)`:
load both sources (fatal on year-coercion failure), reconcile, and emit
the output file contents.  An `Except.error` result models the operation
aborting with no output file written. -/
def merge_tb_data (csv1 csv2 : RawTable) : Except String (Table × String) := do
  let df_new ← load "year" csv1
  let df_old ← load "Year" csv2
  let m := reconcile df_new df_old
  return (m, toCsv m)

/-- Concrete row construction for examples: absent labels are missing. -/
def mkVRow (l : List (String × Val)) : Row := fun c => l.lookup c

/-- Concrete raw-CSV row construction for examples: absent labels are
empty fields. -/
def mkRRow (l : List (String × String)) : RawRow := fun c => l.lookup c

/-- The value a source table holds for key `k` in column `c`: the cell of
its (first) row with that `(iso3, year)` key, or the missing marker when
the table has no row with that key. -/
def valueOf (t : Table) (k : List Cell) (c : String) : Cell :=
  match t.rows.find? (fun r => keyList ["iso3", "year"] r == k) with
  | some r => r c
  | none => none

/-- Every row of the table carries non-missing join-key cells. -/
abbrev keysPresent (t : Table) : Prop :=
  ∀ r ∈ t.rows, (r "iso3").isSome = true ∧ (r "year").isSome = true

/-- Is the cell a (non-missing) string value? -/
def isStrCell : Cell → Bool
  | some (.str _) => true
  | _ => false

/-- Is the cell a (non-missing) integer value? -/
def isIntCell : Cell → Bool
  | some (.int _) => true
  | _ => false

/-- Every row of the table carries a string `iso3` and an integer `year`,
as rows loaded from well-formed sources do. -/
abbrev keysTyped (t : Table) : Prop :=
  ∀ r ∈ t.rows, isStrCell (r "iso3") = true ∧ isIntCell (r "year") = true

/-- The string of a string cell (dummy value otherwise). -/
def getStr : Cell → String
  | some (.str s) => s
  | _ => ""

/-- The integer of an integer cell (dummy value otherwise). -/
def getInt : Cell → Int
  | some (.int n) => n
  | _ => 0

/-! ### Concrete example inputs -/

/-- A small new-format (csv1) file: two India rows plus an extra unmapped
column. -/
def csvNewSample : RawTable :=
  { cols := ["country", "iso3", "year", "e_inc_100k", "extra_column"],
    rows := [mkRRow [("country", "India"), ("iso3", "IND"), ("year", "2005"),
                     ("e_inc_100k", "200"), ("extra_column", "x")],
             mkRRow [("country", "India"), ("iso3", "IND"), ("year", "2010"),
                     ("e_inc_100k", "180")]] }

/-- A small old-format (csv2) file: an overlapping India 2005 row and an
India 1995 row. -/
def csvOldSample : RawTable :=
  { cols := ["Country or territory name", "ISO 3-character country/territory code", "Year",
             "Estimated incidence (all forms) per 100 000 population"],
    rows := [mkRRow [("Country or territory name", "India"),
                     ("ISO 3-character country/territory code", "IND"),
                     ("Year", "2005"),
                     ("Estimated incidence (all forms) per 100 000 population", "150")],
             mkRRow [("Country or territory name", "India"),
                     ("ISO 3-character country/territory code", "IND"),
                     ("Year", "1995"),
                     ("Estimated incidence (all forms) per 100 000 population", "300")]] }

/-- A new-format file whose year field is not integer-coercible. -/
def csvNewBadYear : RawTable :=
  { cols := ["iso3", "year"],
    rows := [mkRRow [("iso3", "IND"), ("year", "two-thousand")]] }

/-- A new-format file with two rows sharing the key (IND, 2005). -/
def csvNewDup : RawTable :=
  { cols := ["iso3", "year", "e_inc_100k"],
    rows := [mkRRow [("iso3", "IND"), ("year", "2005"), ("e_inc_100k", "200")],
             mkRRow [("iso3", "IND"), ("year", "2005"), ("e_inc_100k", "150")]] }

/-- An old-format file with no data rows. -/
def csvOldNoRows : RawTable := { cols := ["Year"], rows := [] }

/-- A well-formed new-format file used alongside `csvOldNoIso3b`. -/
def csvNewC8 : RawTable :=
  { cols := ["country", "iso3", "year", "e_inc_100k"],
    rows := [mkRRow [("country", "Pakistan"), ("iso3", "PAK"), ("year", "2003"),
                     ("e_inc_100k", "231")]] }

/-- Another old-format file with no iso3-mappable column. -/
def csvOldNoIso3b : RawTable :=
  { cols := ["Country or territory name", "Year",
             "Estimated incidence (all forms) per 100 000 population"],
    rows := [mkRRow [("Country or territory name", "Chad"), ("Year", "1993"),
                     ("Estimated incidence (all forms) per 100 000 population", "88")]] }

/-- The new-format sample already loaded (year coerced to integers). -/
def dfNewT : Table :=
  { cols := ["country", "iso3", "year", "e_inc_100k"],
    rows := [mkVRow [("country", .str "India"), ("iso3", .str "IND"), ("year", .int 2005),
                     ("e_inc_100k", .str "200")],
             mkVRow [("country", .str "India"), ("iso3", .str "IND"), ("year", .int 2010),
                     ("e_inc_100k", .str "180")]] }

/-- The old-format sample already loaded (year coerced to integers). -/
def dfOldT : Table :=
  { cols := ["Country or territory name", "ISO 3-character country/territory code", "Year",
             "Estimated incidence (all forms) per 100 000 population"],
    rows := [mkVRow [("Country or territory name", .str "India"),
                     ("ISO 3-character country/territory code", .str "IND"),
                     ("Year", .int 2005),
                     ("Estimated incidence (all forms) per 100 000 population", .str "150")],
             mkVRow [("Country or territory name", .str "India"),
                     ("ISO 3-character country/territory code", .str "IND"),
                     ("Year", .int 1995),
                     ("Estimated incidence (all forms) per 100 000 population", .str "300")]] }

/-- A loaded frame whose year column is named `YEAR`, not `year`. -/
def dfYearCase : Table :=
  { cols := ["YEAR", "iso3"],
    rows := [mkVRow [("YEAR", .str "2005"), ("iso3", .str "IND")]] }

/-! ### Basic lemmas about loading -/

theorem contains_mem {l : List String} {c : String} : l.contains c = true ↔ c ∈ l := by
  simp [List.contains, List.elem_iff]

theorem mapExcept_ok_mem {α β ε : Type} {f : α → Except ε β} :
    ∀ {l : List α} {ys : List β}, mapExcept f l = .ok ys → ∀ x ∈ l, ∃ y, f x = .ok y := by
  intro l
  induction l with
  | nil => intro ys _ x hx; cases hx
  | cons a as ih =>
    intro ys h x hx
    cases hfa : f a with
    | error e =>
      simp only [mapExcept, hfa, bind, Except.bind] at h
      exact Except.noConfusion h
    | ok b =>
      cases hm : mapExcept f as with
      | error e =>
        simp only [mapExcept, hfa, hm, bind, Except.bind] at h
        exact Except.noConfusion h
      | ok bs =>
        rcases List.mem_cons.mp hx with rfl | hx'
        · exact ⟨b, hfa⟩
        · exact ih hm x hx'

theorem load_cols {ycol : String} {t : RawTable} {d : Table}
    (h : load ycol t = .ok d) : d.cols = t.cols := by
  cases hm : mapExcept (loadRow ycol (t.cols.contains ycol)) t.rows with
  | error e =>
    simp only [load, hm, bind, Except.bind] at h
    exact Except.noConfusion h
  | ok rows =>
    simp only [load, hm, bind, Except.bind, pure, Except.pure, Except.ok.injEq] at h
    rw [← h]

theorem load_ok_coercible {ycol : String} {t : RawTable} {d : Table}
    (h : load ycol t = .ok d) (hy : t.cols.contains ycol = true) :
    ∀ r ∈ t.rows, intCoercible (r ycol) = true := by
  intro r hr
  cases hm : mapExcept (loadRow ycol (t.cols.contains ycol)) t.rows with
  | error e =>
    simp only [load, hm, bind, Except.bind] at h
    exact Except.noConfusion h
  | ok rows =>
    obtain ⟨row, hrow⟩ := mapExcept_ok_mem hm r hr
    rw [hy] at hrow
    cases hcell : r ycol with
    | none => simp [loadRow, hcell] at hrow
    | some s =>
      cases hp : parseInt s with
      | none => simp [loadRow, hcell, hp] at hrow
      | some n => simp [intCoercible, hcell, hp]

theorem pad_fold_preserve (l : List String) (c : String) :
    ∀ (t : Table), t.cols.contains c = true → (∀ r ∈ t.rows, r c = none) →
      (l.foldl padCol t).cols.contains c = true ∧
      ∀ r ∈ (l.foldl padCol t).rows, r c = none := by
  induction l with
  | nil => intro t h1 h2; exact ⟨h1, h2⟩
  | cons d l ih =>
    intro t h1 h2
    rw [List.foldl_cons]
    by_cases hd : t.cols.contains d = true
    · rw [padCol, if_pos hd]
      exact ih t h1 h2
    · rw [padCol, if_neg hd]
      refine ih _ ?_ ?_
      · rw [contains_mem] at h1 ⊢
        exact List.mem_append.mpr (Or.inl h1)
      · intro r hr
        obtain ⟨r0, hr0, rfl⟩ := List.mem_map.mp hr
        by_cases hcd : c = d
        · subst hcd
          exact absurd h1 (by simpa using hd)
        · simp only [if_neg hcd]
          exact h2 r0 hr0

theorem pad_fold_missing (l : List String) (c : String) :
    ∀ (t : Table), c ∈ l → t.cols.contains c = false →
      (l.foldl padCol t).cols.contains c = true ∧
      ∀ r ∈ (l.foldl padCol t).rows, r c = none := by
  induction l with
  | nil => intro t hc _; cases hc
  | cons d l ih =>
    intro t hc hmiss
    rw [List.foldl_cons]
    by_cases hcd : c = d
    · subst hcd
      rw [padCol, if_neg (by rw [hmiss]; simp)]
      refine pad_fold_preserve l c _ ?_ ?_
      · rw [contains_mem]
        exact List.mem_append.mpr (Or.inr (List.mem_singleton.mpr rfl))
      · intro r hr
        obtain ⟨r0, _, rfl⟩ := List.mem_map.mp hr
        simp
    · rcases List.mem_cons.mp hc with rfl | hc'
      · exact absurd rfl hcd
      · by_cases hd : t.cols.contains d = true
        · rw [padCol, if_pos hd]
          exact ih t hc' hmiss
        · rw [padCol, if_neg hd]
          refine ih _ hc' ?_
          cases hcc : (t.cols ++ [d]).contains c with
          | false => rfl
          | true =>
            rw [contains_mem] at hcc
            rcases List.mem_append.mp hcc with hin | hin
            · rw [← contains_mem] at hin
              rw [hin] at hmiss
              exact absurd hmiss (by simp)
            · exact absurd (List.mem_singleton.mp hin) hcd

/-! ### Lemmas about the combine loop -/

theorem append_suffix_ne (c s : String) (hs : s.data ≠ []) : c ++ s ≠ c := by
  intro h
  obtain ⟨cd⟩ := c
  obtain ⟨sd⟩ := s
  have hd : cd ++ sd = cd := congrArg String.data h
  have hl := congrArg List.length hd
  rw [List.length_append] at hl
  have hz : sd.length = 0 := by omega
  exact hs (List.length_eq_zero.mp hz)

theorem zip_combine_map (c : String) : ∀ (l : List Row),
    ((l.zip (List.zipWith (fun nv ov => match nv with | some v => some v | none => ov)
        (l.map (fun r => r (c ++ "_new"))) (l.map (fun r => r (c ++ "_old"))))).map
      (fun p => fun x => if x = c then p.2 else p.1 x))
    = l.map (fun r => fun x => if x = c then
        (match r (c ++ "_new") with | some v => some v | none => r (c ++ "_old")) else r x) := by
  intro l
  induction l with
  | nil => rfl
  | cons a l ih =>
    simp only [List.map_cons, List.zipWith_cons_cons, List.zip_cons_cons, ih]

theorem combineStep_rows (t : Table) (c : String) :
    (combineStep t c).rows = t.rows.map (combRowStep c) := by
  by_cases h : (["iso3", "year"].contains c) = true
  · rw [combineStep, if_pos h]
    have : combRowStep c = fun r => r := funext fun r => by rw [combRowStep, if_pos h]
    rw [this, List.map_id']
  · rw [combineStep, if_neg h]
    have : combRowStep c = fun r => fun x => if x = c then
        (match r (c ++ "_new") with | some v => some v | none => r (c ++ "_old")) else r x :=
      funext fun r => by rw [combRowStep, if_neg h]
    rw [this, setCol]
    exact zip_combine_map c t.rows

theorem combineAll_fold_rows : ∀ (l : List String) (t : Table),
    (l.foldl combineStep t).rows = t.rows.map (fun r => l.foldl (fun r c => combRowStep c r) r) := by
  intro l
  induction l with
  | nil => intro t; simp
  | cons c l ih =>
    intro t
    rw [List.foldl_cons, ih (combineStep t c), combineStep_rows, List.map_map]
    rfl

theorem combFold_ne (l : List String) : ∀ (r : Row) (x : String), (∀ c ∈ l, c ≠ x) →
    (l.foldl (fun r c => combRowStep c r) r) x = r x := by
  induction l with
  | nil => intro r x _; rfl
  | cons c l ih =>
    intro r x h
    rw [List.foldl_cons, ih _ x (fun d hd => h d (List.mem_cons_of_mem _ hd))]
    rw [combRowStep]
    by_cases hc : (["iso3", "year"].contains c) = true
    · rw [if_pos hc]
    · rw [if_neg hc]
      exact if_neg (fun he => h c (List.mem_cons_self c l) he.symm)

theorem combFold_keyCol (l : List String) : ∀ (r : Row) (x : String),
    x = "iso3" ∨ x = "year" →
    (l.foldl (fun r c => combRowStep c r) r) x = r x := by
  induction l with
  | nil => intro r x _; rfl
  | cons c l ih =>
    intro r x hx
    rw [List.foldl_cons, ih _ x hx]
    rw [combRowStep]
    by_cases hc : (["iso3", "year"].contains c) = true
    · rw [if_pos hc]
    · rw [if_neg hc]
      refine if_neg ?_
      intro he
      apply hc
      rw [← he]
      rcases hx with rfl | rfl <;> rfl

theorem combFold_at (l : List String) : ∀ (r : Row) (c : String), l.Nodup → c ∈ l →
    (["iso3", "year"].contains c) = false →
    (∀ d ∈ l, d ≠ c ++ "_new" ∧ d ≠ c ++ "_old") →
    (l.foldl (fun r c => combRowStep c r) r) c =
      (match r (c ++ "_new") with | some v => some v | none => r (c ++ "_old")) := by
  induction l with
  | nil => intro r c _ hc; cases hc
  | cons d l ih =>
    intro r c hnd hc hkey hsuf
    rw [List.foldl_cons]
    by_cases hdc : d = c
    · subst hdc
      have hrest : ∀ e ∈ l, e ≠ d :=
        fun e he heq => (List.nodup_cons.mp hnd).1 (heq ▸ he)
      rw [combFold_ne l _ d hrest]
      simp only [combRowStep, hkey]
      simp
    · have hcl : c ∈ l := by
        rcases List.mem_cons.mp hc with rfl | h
        · exact absurd rfl hdc
        · exact h
      rw [ih _ c (List.nodup_cons.mp hnd).2 hcl hkey
        (fun e he => hsuf e (List.mem_cons_of_mem _ he))]
      have hd := hsuf d (List.mem_cons_self d l)
      simp only [combRowStep]
      by_cases hdk : (["iso3", "year"].contains d) = true
      · rw [if_pos hdk]
      · rw [if_neg hdk]
        simp only [if_neg (show ¬(c ++ "_new" = d) from fun h => hd.1 h.symm),
          if_neg (show ¬(c ++ "_old" = d) from fun h => hd.2 h.symm)]

/-! ### Lemmas about the outer merge -/

theorem outRow_key_left (lr : Row) (x : Option Row) (k : String)
    (hk : k = "iso3" ∨ k = "year") :
    outRow final_columns final_columns ["iso3", "year"] (some lr) x k = lr k := by
  rcases hk with rfl | rfl <;> rfl

theorem outRow_key_right (nr : Row) (k : String) (hk : k = "iso3" ∨ k = "year") :
    outRow final_columns final_columns ["iso3", "year"] none (some nr) k = nr k := by
  rcases hk with rfl | rfl <;> rfl

theorem outRow_old_val (olr onr : Option Row) (c : String) (hc : c ∈ final_columns)
    (hkey : (["iso3", "year"].contains c) = false) :
    outRow final_columns final_columns ["iso3", "year"] olr onr (c ++ "_old")
      = match olr with | some lr => lr c | none => none := by
  simp only [final_columns] at hc
  fin_cases hc <;> first | exact absurd hkey (by decide) | rfl

theorem outRow_new_val (olr onr : Option Row) (c : String) (hc : c ∈ final_columns)
    (hkey : (["iso3", "year"].contains c) = false) :
    outRow final_columns final_columns ["iso3", "year"] olr onr (c ++ "_new")
      = match onr with | some nr => nr c | none => none := by
  simp only [final_columns] at hc
  fin_cases hc <;> first | exact absurd hkey (by decide) | rfl

theorem keyList_outRow_left (lr : Row) (x : Option Row) :
    keyList ["iso3", "year"] (outRow final_columns final_columns ["iso3", "year"] (some lr) x)
      = keyList ["iso3", "year"] lr := by
  simp only [keyList, List.map_cons, List.map_nil]
  rw [outRow_key_left lr x _ (Or.inl rfl), outRow_key_left lr x _ (Or.inr rfl)]

theorem keyList_outRow_right (nr : Row) :
    keyList ["iso3", "year"] (outRow final_columns final_columns ["iso3", "year"] none (some nr))
      = keyList ["iso3", "year"] nr := by
  simp only [keyList, List.map_cons, List.map_nil]
  rw [outRow_key_right nr _ (Or.inl rfl), outRow_key_right nr _ (Or.inr rfl)]

theorem filter_key_of_nodup :
    ∀ {l : List Row}, (l.map (keyList ["iso3", "year"])).Nodup → ∀ (k : List Cell),
      (l.filter (fun x => keyList ["iso3", "year"] x == k)) = [] ∨
      ∃ x, (l.filter (fun x => keyList ["iso3", "year"] x == k)) = [x] ∧ x ∈ l ∧
        keyList ["iso3", "year"] x = k := by
  intro l
  induction l with
  | nil => intro _ k; exact Or.inl rfl
  | cons a t ih =>
    intro hnd k
    rw [List.map_cons, List.nodup_cons] at hnd
    by_cases hak : keyList ["iso3", "year"] a = k
    · right
      refine ⟨a, ?_, List.mem_cons_self a t, hak⟩
      rw [List.filter_cons_of_pos (by simp [hak])]
      have hrest : t.filter (fun x => keyList ["iso3", "year"] x == k) = [] := by
        rw [List.filter_eq_nil_iff]
        intro x hx hbeq
        exact hnd.1 (List.mem_map.mpr ⟨x, hx, by
          rw [beq_iff_eq] at hbeq
          rw [hbeq, hak]⟩)
      rw [hrest]
    · rw [List.filter_cons_of_neg (by simp [hak])]
      rcases ih hnd.2 k with h | ⟨x, hx, hmem, hfx⟩
      · exact Or.inl h
      · exact Or.inr ⟨x, hx, List.mem_cons_of_mem _ hmem, hfx⟩

theorem flatMap_single {α β : Type} (f : α → β) : ∀ (l : List α),
    (l.flatMap fun x => [f x]) = l.map f := by
  intro l
  induction l with
  | nil => rfl
  | cons a t ih => simp [List.flatMap_cons, ih]

theorem flatMap_keys_left (Rrows : List Row)
    (hRnd : (Rrows.map (keyList ["iso3", "year"])).Nodup) :
    ∀ (Lrows : List Row),
      (Lrows.flatMap fun lr =>
        List.map (keyList ["iso3", "year"])
          (match Rrows.filter (fun rr =>
              keyList ["iso3", "year"] rr == keyList ["iso3", "year"] lr) with
           | [] => [outRow final_columns final_columns ["iso3", "year"] (some lr) none]
           | ms => ms.map fun rr =>
               outRow final_columns final_columns ["iso3", "year"] (some lr) (some rr)))
      = Lrows.map (keyList ["iso3", "year"]) := by
  intro Lrows
  induction Lrows with
  | nil => rfl
  | cons lr t ih =>
    rw [List.flatMap_cons, List.map_cons, ← ih]
    have hhead : List.map (keyList ["iso3", "year"])
        (match Rrows.filter (fun rr =>
            keyList ["iso3", "year"] rr == keyList ["iso3", "year"] lr) with
         | [] => [outRow final_columns final_columns ["iso3", "year"] (some lr) none]
         | ms => ms.map fun rr =>
             outRow final_columns final_columns ["iso3", "year"] (some lr) (some rr))
        = [keyList ["iso3", "year"] lr] := by
      cases hfil : Rrows.filter (fun rr =>
          keyList ["iso3", "year"] rr == keyList ["iso3", "year"] lr) with
      | nil => simp [keyList_outRow_left]
      | cons y ys =>
        rcases filter_key_of_nodup hRnd (keyList ["iso3", "year"] lr) with hnil | ⟨x, hx, _, _⟩
        · rw [hfil] at hnil
          cases hnil
        · rw [hfil] at hx
          obtain ⟨rfl, rfl⟩ : y = x ∧ ys = [] := by
            have h1 := List.cons.injEq y ys x ([] : List Row) ▸ hx
            exact ⟨by injection hx, by injection hx⟩
          simp [keyList_outRow_left]
    rw [hhead]
    rfl

theorem merge_keys_spec {L R : Table} (hL : L.cols = final_columns)
    (hR : R.cols = final_columns)
    (hRnd : (R.rows.map (keyList ["iso3", "year"])).Nodup) :
    (mergeOuter L R ["iso3", "year"]).rows.map (keyList ["iso3", "year"])
      = L.rows.map (keyList ["iso3", "year"])
        ++ (R.rows.filter (fun rr =>
             (L.rows.filter (fun lr =>
               keyList ["iso3", "year"] lr == keyList ["iso3", "year"] rr)).isEmpty)).map
           (keyList ["iso3", "year"]) := by
  simp only [mergeOuter, hL, hR]
  rw [List.map_append]
  congr 1
  · rw [List.map_flatMap]
    exact flatMap_keys_left R.rows hRnd L.rows
  · rw [List.map_map]
    exact List.map_congr_left (fun rr _ => keyList_outRow_right rr)

theorem merge_rows_mem {L R : Table} (hL : L.cols = final_columns)
    (hR : R.cols = final_columns) {m : Row}
    (hm : m ∈ (mergeOuter L R ["iso3", "year"]).rows) :
    (∃ lr ∈ L.rows, ∃ rr ∈ R.rows,
        keyList ["iso3", "year"] rr = keyList ["iso3", "year"] lr ∧
        m = outRow final_columns final_columns ["iso3", "year"] (some lr) (some rr)) ∨
    (∃ lr ∈ L.rows, (∀ rr ∈ R.rows, keyList ["iso3", "year"] rr ≠ keyList ["iso3", "year"] lr) ∧
        m = outRow final_columns final_columns ["iso3", "year"] (some lr) none) ∨
    (∃ rr ∈ R.rows, (∀ lr ∈ L.rows, keyList ["iso3", "year"] lr ≠ keyList ["iso3", "year"] rr) ∧
        m = outRow final_columns final_columns ["iso3", "year"] none (some rr)) := by
  simp only [mergeOuter, hL, hR] at hm
  rcases List.mem_append.mp hm with h | h
  · obtain ⟨lr, hlr, hmem⟩ := List.mem_flatMap.mp h
    cases hfil : R.rows.filter (fun rr =>
        keyList ["iso3", "year"] rr == keyList ["iso3", "year"] lr) with
    | nil =>
      rw [hfil] at hmem
      right; left
      refine ⟨lr, hlr, ?_, ?_⟩
      · intro rr hrr heq
        have hmem2 : rr ∈ R.rows.filter (fun rr =>
            keyList ["iso3", "year"] rr == keyList ["iso3", "year"] lr) :=
          List.mem_filter.mpr ⟨hrr, by simp [heq]⟩
        rw [hfil] at hmem2
        cases hmem2
      · simpa using hmem
    | cons y ys =>
      rw [hfil] at hmem
      have hmem' : m ∈ (y :: ys).map (fun rr =>
          outRow final_columns final_columns ["iso3", "year"] (some lr) (some rr)) := hmem
      obtain ⟨rr, hrrmem, hout⟩ := List.mem_map.mp hmem'
      rw [← hfil] at hrrmem
      have hf := List.mem_filter.mp hrrmem
      exact Or.inl ⟨lr, hlr, rr, hf.1, beq_iff_eq.mp hf.2, hout.symm⟩
  · right; right
    obtain ⟨rr, hrr, hout⟩ := List.mem_map.mp h
    have hf := List.mem_filter.mp hrr
    refine ⟨rr, hf.1, ?_, hout.symm⟩
    intro lr hlr heq
    have hnil : L.rows.filter (fun lr =>
        keyList ["iso3", "year"] lr == keyList ["iso3", "year"] rr) = [] :=
      List.isEmpty_iff.mp hf.2
    have : lr ∈ L.rows.filter (fun lr =>
        keyList ["iso3", "year"] lr == keyList ["iso3", "year"] rr) :=
      List.mem_filter.mpr ⟨hlr, by simp [heq]⟩
    rw [hnil] at this
    cases this

/-! ### Lemmas about the reconcile pipeline -/

theorem reconcile_cols (df_new df_old : Table) :
    (reconcile df_new df_old).cols = final_columns := rfl

theorem prep_new_cols (df : Table) : (prep_new df).cols = final_columns := rfl

theorem prep_old_cols (df : Table) : (prep_old df).cols = final_columns := rfl

theorem reconcile_rows (df_new df_old : Table) :
    (reconcile df_new df_old).rows
      = (List.insertionSort (fun a b => rowLe a b = true)
          ((mergeOuter (prep_old df_old) (prep_new df_new) ["iso3", "year"]).rows.map
            (fun r => final_columns.foldl (fun r c => combRowStep c r) r))).map
        (fun r => fun c => if final_columns.contains c then
            match r c with | none => some (Val.str "") | some v => some v
          else r c) := by
  simp only [reconcile, fillna, sort_values, project, combineAll]
  rw [combineAll_fold_rows]

theorem keyList_combFold (r : Row) :
    keyList ["iso3", "year"] (final_columns.foldl (fun r c => combRowStep c r) r)
      = keyList ["iso3", "year"] r := by
  simp only [keyList, List.map_cons, List.map_nil]
  rw [combFold_keyCol _ _ _ (Or.inl rfl), combFold_keyCol _ _ _ (Or.inr rfl)]

theorem fillRow_of_isSome (r : Row) (x : String) (hs : (r x).isSome = true) :
    (if final_columns.contains x then
        match r x with | none => some (Val.str "") | some v => some v
      else r x) = r x := by
  cases hrx : r x with
  | none => rw [hrx] at hs; exact absurd hs (by simp)
  | some v => split <;> rfl

theorem merge_rows_key_origin {L R : Table} (hL : L.cols = final_columns)
    (hR : R.cols = final_columns) :
    ∀ m ∈ (mergeOuter L R ["iso3", "year"]).rows,
      ∃ r0, (r0 ∈ L.rows ∨ r0 ∈ R.rows) ∧ m "iso3" = r0 "iso3" ∧ m "year" = r0 "year" := by
  intro m hm
  rcases merge_rows_mem hL hR hm with
    ⟨lr, hlr, rr, hrr, hk, rfl⟩ | ⟨lr, hlr, _, rfl⟩ | ⟨rr, hrr, _, rfl⟩
  · exact ⟨lr, Or.inl hlr,
      outRow_key_left lr _ _ (Or.inl rfl), outRow_key_left lr _ _ (Or.inr rfl)⟩
  · exact ⟨lr, Or.inl hlr,
      outRow_key_left lr _ _ (Or.inl rfl), outRow_key_left lr _ _ (Or.inr rfl)⟩
  · exact ⟨rr, Or.inr hrr,
      outRow_key_right rr _ (Or.inl rfl), outRow_key_right rr _ (Or.inr rfl)⟩

theorem reconcile_mem_origin (df_new df_old : Table)
    (hkA : keysPresent (prep_new df_new)) (hkB : keysPresent (prep_old df_old)) :
    ∀ r ∈ (reconcile df_new df_old).rows,
      ∃ m ∈ (mergeOuter (prep_old df_old) (prep_new df_new) ["iso3", "year"]).rows,
        r = (fun c => if final_columns.contains c then
              match (final_columns.foldl (fun r c => combRowStep c r) m) c with
              | none => some (Val.str "") | some v => some v
            else (final_columns.foldl (fun r c => combRowStep c r) m) c) ∧
        r "iso3" = m "iso3" ∧ r "year" = m "year" := by
  intro r hr
  rw [reconcile_rows] at hr
  obtain ⟨r1, hr1, rfl⟩ := List.mem_map.mp hr
  rw [List.mem_insertionSort] at hr1
  obtain ⟨m, hmem, rfl⟩ := List.mem_map.mp hr1
  obtain ⟨r0, hro, h3, hy⟩ := merge_rows_key_origin rfl rfl m hmem
  have hks : (m "iso3").isSome = true ∧ (m "year").isSome = true := by
    rcases hro with h | h
    · exact ⟨h3 ▸ (hkB r0 h).1, hy ▸ (hkB r0 h).2⟩
    · exact ⟨h3 ▸ (hkA r0 h).1, hy ▸ (hkA r0 h).2⟩
  have c3 : (final_columns.foldl (fun r c => combRowStep c r) m) "iso3" = m "iso3" :=
    combFold_keyCol _ _ _ (Or.inl rfl)
  have cy : (final_columns.foldl (fun r c => combRowStep c r) m) "year" = m "year" :=
    combFold_keyCol _ _ _ (Or.inr rfl)
  refine ⟨m, hmem, rfl, ?_, ?_⟩
  · exact (fillRow_of_isSome _ "iso3" (by rw [c3]; exact hks.1)).trans c3
  · exact (fillRow_of_isSome _ "year" (by rw [cy]; exact hks.2)).trans cy

theorem reconcile_keys_perm (df_new df_old : Table)
    (hAnd : ((prep_new df_new).rows.map (keyList ["iso3", "year"])).Nodup)
    (hkA : keysPresent (prep_new df_new)) (hkB : keysPresent (prep_old df_old)) :
    ((reconcile df_new df_old).rows.map (keyList ["iso3", "year"])).Perm
      ((prep_old df_old).rows.map (keyList ["iso3", "year"])
        ++ ((prep_new df_new).rows.filter (fun rr =>
            ((prep_old df_old).rows.filter (fun lr =>
              keyList ["iso3", "year"] lr == keyList ["iso3", "year"] rr)).isEmpty)).map
          (keyList ["iso3", "year"])) := by
  rw [reconcile_rows]
  have e1 : ((List.insertionSort (fun a b => rowLe a b = true)
        ((mergeOuter (prep_old df_old) (prep_new df_new) ["iso3", "year"]).rows.map
          (fun r => final_columns.foldl (fun r c => combRowStep c r) r))).map
        (fun r => fun c => if final_columns.contains c then
            match r c with | none => some (Val.str "") | some v => some v
          else r c)).map (keyList ["iso3", "year"])
      = (List.insertionSort (fun a b => rowLe a b = true)
        ((mergeOuter (prep_old df_old) (prep_new df_new) ["iso3", "year"]).rows.map
          (fun r => final_columns.foldl (fun r c => combRowStep c r) r))).map
        (keyList ["iso3", "year"]) := by
    rw [List.map_map]
    apply List.map_congr_left
    intro x hx
    rw [List.mem_insertionSort] at hx
    obtain ⟨m, hmem, rfl⟩ := List.mem_map.mp hx
    obtain ⟨r0, hro, h3, hy⟩ := merge_rows_key_origin rfl rfl m hmem
    have hks : (m "iso3").isSome = true ∧ (m "year").isSome = true := by
      rcases hro with h | h
      · exact ⟨h3 ▸ (hkB r0 h).1, hy ▸ (hkB r0 h).2⟩
      · exact ⟨h3 ▸ (hkA r0 h).1, hy ▸ (hkA r0 h).2⟩
    have c3 : (final_columns.foldl (fun r c => combRowStep c r) m) "iso3" = m "iso3" :=
      combFold_keyCol _ _ _ (Or.inl rfl)
    have cy : (final_columns.foldl (fun r c => combRowStep c r) m) "year" = m "year" :=
      combFold_keyCol _ _ _ (Or.inr rfl)
    show keyList ["iso3", "year"] _ = _
    simp only [keyList, List.map_cons, List.map_nil]
    rw [(fillRow_of_isSome _ "iso3" (by rw [c3]; exact hks.1)),
        (fillRow_of_isSome _ "year" (by rw [cy]; exact hks.2))]
  rw [e1]
  have p2 := List.Perm.map (keyList ["iso3", "year"])
    (List.perm_insertionSort (fun a b => rowLe a b = true)
      ((mergeOuter (prep_old df_old) (prep_new df_new) ["iso3", "year"]).rows.map
        (fun r => final_columns.foldl (fun r c => combRowStep c r) r)))
  refine p2.trans ?_
  rw [List.map_map]
  have e3 : (keyList ["iso3", "year"] ∘ fun r =>
        final_columns.foldl (fun r c => combRowStep c r) r)
      = keyList ["iso3", "year"] := funext fun r => keyList_combFold r
  rw [e3, merge_keys_spec rfl rfl hAnd]

theorem final_columns_suffix_free : ∀ c ∈ final_columns, ∀ d ∈ final_columns,
    d ≠ c ++ "_new" ∧ d ≠ c ++ "_old" := by decide

theorem outRow_new_val_some (olr : Option Row) (rr : Row) (c : String)
    (hc : c ∈ final_columns) (hkey : (["iso3", "year"].contains c) = false) :
    outRow final_columns final_columns ["iso3", "year"] olr (some rr) (c ++ "_new") = rr c := by
  rw [outRow_new_val olr (some rr) c hc hkey]

theorem outRow_new_val_none (olr : Option Row) (c : String)
    (hc : c ∈ final_columns) (hkey : (["iso3", "year"].contains c) = false) :
    outRow final_columns final_columns ["iso3", "year"] olr none (c ++ "_new") = none := by
  rw [outRow_new_val olr none c hc hkey]

theorem outRow_old_val_some (lr : Row) (onr : Option Row) (c : String)
    (hc : c ∈ final_columns) (hkey : (["iso3", "year"].contains c) = false) :
    outRow final_columns final_columns ["iso3", "year"] (some lr) onr (c ++ "_old") = lr c := by
  rw [outRow_old_val (some lr) onr c hc hkey]

theorem outRow_old_val_none (onr : Option Row) (c : String)
    (hc : c ∈ final_columns) (hkey : (["iso3", "year"].contains c) = false) :
    outRow final_columns final_columns ["iso3", "year"] none onr (c ++ "_old") = none := by
  rw [outRow_old_val none onr c hc hkey]

theorem valueOf_eq_of_mem {t : Table}
    (hnd : (t.rows.map (keyList ["iso3", "year"])).Nodup) {x : Row} (hx : x ∈ t.rows)
    {k : List Cell} (hkx : keyList ["iso3", "year"] x = k) (c : String) :
    valueOf t k c = x c := by
  rw [valueOf]
  cases hf : t.rows.find? (fun r => keyList ["iso3", "year"] r == k) with
  | none =>
    have hex : ∃ r ∈ t.rows, (keyList ["iso3", "year"] r == k) = true :=
      ⟨x, hx, by simp [hkx]⟩
    have h2 := List.find?_isSome.mpr hex
    rw [hf] at h2
    exact absurd h2 (by simp)
  | some z =>
    have hz1 := List.find?_some hf
    have hz2 := List.mem_of_find?_eq_some hf
    have hzx : z = x :=
      List.inj_on_of_nodup_map hnd hz2 hx (by rw [beq_iff_eq.mp hz1, hkx])
    rw [hzx]

theorem valueOf_eq_none {t : Table} {k : List Cell}
    (h : ∀ x ∈ t.rows, keyList ["iso3", "year"] x ≠ k) (c : String) :
    valueOf t k c = none := by
  rw [valueOf, List.find?_eq_none.mpr (fun x hx => by simp [h x hx])]

theorem fill_apply (r : Row) (c : String) (hcc : final_columns.contains c = true) :
    (fun x => if final_columns.contains x then
        match r x with | none => some (Val.str "") | some v => some v
      else r x) c
    = match r c with | none => some (Val.str "") | some v => some v := by
  simp only [hcc]
  exact if_pos trivial

theorem reconcile_value (df_new df_old : Table)
    (hAnd : ((prep_new df_new).rows.map (keyList ["iso3", "year"])).Nodup)
    (hBnd : ((prep_old df_old).rows.map (keyList ["iso3", "year"])).Nodup)
    (hkA : keysPresent (prep_new df_new)) (hkB : keysPresent (prep_old df_old))
    (c : String) (hc : c ∈ final_columns) (hkey : (["iso3", "year"].contains c) = false) :
    ∀ r ∈ (reconcile df_new df_old).rows,
      r c = match valueOf (prep_new df_new) (keyList ["iso3", "year"] r) c with
            | some v => some v
            | none =>
              match valueOf (prep_old df_old) (keyList ["iso3", "year"] r) c with
              | some w => some w
              | none => some (Val.str "") := by
  intro r hr
  obtain ⟨m, hmem, hre, h3, hy⟩ := reconcile_mem_origin df_new df_old hkA hkB r hr
  have hklr : keyList ["iso3", "year"] r = keyList ["iso3", "year"] m := by
    simp only [keyList, List.map_cons, List.map_nil]
    rw [h3, hy]
  rw [hklr, hre, fill_apply _ c (contains_mem.mpr hc)]
  rw [combFold_at final_columns m c (by decide) hc hkey (final_columns_suffix_free c hc)]
  rcases merge_rows_mem rfl rfl hmem with
    ⟨lr, hlr, rr, hrr, hk, rfl⟩ | ⟨lr, hlr, hnone, rfl⟩ | ⟨rr, hrr, hnone, rfl⟩
  · -- key present in both sources: the new (right) value wins when present
    rw [outRow_new_val_some _ rr c hc hkey, outRow_old_val_some lr _ c hc hkey]
    rw [keyList_outRow_left lr _]
    rw [valueOf_eq_of_mem hAnd hrr hk c]
    rw [valueOf_eq_of_mem hBnd hlr rfl c]
    cases rr c <;> cases lr c <;> rfl
  · -- key present only in the old (left) source
    rw [outRow_new_val_none _ c hc hkey, outRow_old_val_some lr _ c hc hkey]
    rw [keyList_outRow_left lr _]
    rw [valueOf_eq_none (fun x hx => hnone x hx) c]
    rw [valueOf_eq_of_mem hBnd hlr rfl c]
    cases lr c <;> rfl
  · -- key present only in the new (right) source
    rw [outRow_new_val_some _ rr c hc hkey, outRow_old_val_none _ c hc hkey]
    rw [keyList_outRow_right rr]
    rw [valueOf_eq_of_mem hAnd hrr rfl c]
    rw [valueOf_eq_none (fun x hx => hnone x hx) c]
    cases rr c <;> rfl

/-! ### Lemmas about the sort order -/

theorem char_toNat_inj {a b : Char} (h : a.toNat = b.toNat) : a = b := by
  apply Char.ext
  have h2 : a.val.toNat = b.val.toNat := h
  cases hv1 : a.val
  cases hv2 : b.val
  rw [hv1, hv2] at h2
  simp only [UInt32.toNat] at h2
  congr 1
  exact BitVec.eq_of_toNat_eq h2

theorem string_data_inj {a b : String} (h : a.data = b.data) : a = b := by
  cases a
  cases b
  congr 1

theorem lexLe_total : ∀ (as bs : List Char), lexLe as bs = true ∨ lexLe bs as = true := by
  intro as
  induction as with
  | nil => intro bs; exact Or.inl rfl
  | cons a as ih =>
    intro bs
    cases bs with
    | nil => exact Or.inr rfl
    | cons b bs =>
      by_cases hab : a.toNat = b.toNat
      · rcases ih bs with h | h
        · exact Or.inl (by simp [lexLe, hab, h])
        · exact Or.inr (by simp [lexLe, hab.symm, h])
      · rcases Nat.lt_or_ge a.toNat b.toNat with hlt | hge
        · refine Or.inl ?_
          rw [lexLe, if_neg hab, Nat.blt_eq]
          exact hlt
        · have hlt : b.toNat < a.toNat := Nat.lt_of_le_of_ne hge (fun h => hab h.symm)
          refine Or.inr ?_
          rw [lexLe, if_neg (fun h => hab h.symm), Nat.blt_eq]
          exact hlt

theorem lexLe_trans : ∀ (as bs cs : List Char),
    lexLe as bs = true → lexLe bs cs = true → lexLe as cs = true := by
  intro as
  induction as with
  | nil => intro bs cs _ _; rfl
  | cons a as ih =>
    intro bs cs h1 h2
    cases bs with
    | nil => exact absurd h1 (by simp [lexLe])
    | cons b bs =>
      cases cs with
      | nil => exact absurd h2 (by simp [lexLe])
      | cons c cs =>
        by_cases hab : a.toNat = b.toNat <;> by_cases hbc : b.toNat = c.toNat
        · rw [lexLe, if_pos (hab.trans hbc)]
          rw [lexLe, if_pos hab] at h1
          rw [lexLe, if_pos hbc] at h2
          exact ih bs cs h1 h2
        · rw [lexLe, if_neg (hab ▸ hbc)]
          rw [lexLe, if_neg hbc] at h2
          rw [hab]
          exact h2
        · rw [lexLe, if_neg (fun h => hab (hbc ▸ h))]
          rw [lexLe, if_neg hab] at h1
          rw [← hbc]
          exact h1
        · rw [lexLe, if_neg hab] at h1
          rw [lexLe, if_neg hbc] at h2
          rw [Nat.blt_eq] at h1 h2
          have hac : a.toNat < c.toNat := Nat.lt_trans h1 h2
          rw [lexLe, if_neg (Nat.ne_of_lt hac), Nat.blt_eq]
          simp [hac]

theorem lexLe_antisymm : ∀ (as bs : List Char),
    lexLe as bs = true → lexLe bs as = true → as = bs := by
  intro as
  induction as with
  | nil =>
    intro bs _ h2
    cases bs with
    | nil => rfl
    | cons b bs => exact absurd h2 (by simp [lexLe])
  | cons a as ih =>
    intro bs h1 h2
    cases bs with
    | nil => exact absurd h1 (by simp [lexLe])
    | cons b bs =>
      by_cases hab : a.toNat = b.toNat
      · rw [lexLe, if_pos hab] at h1
        rw [lexLe, if_pos hab.symm] at h2
        rw [char_toNat_inj hab, ih bs h1 h2]
      · rw [lexLe, if_neg hab, Nat.blt_eq] at h1
        rw [lexLe, if_neg (fun h => hab h.symm), Nat.blt_eq] at h2
        exact absurd h1 (Nat.lt_asymm h2)

theorem lexLt_of_le_of_ne : ∀ (as bs : List Char),
    lexLe as bs = true → as ≠ bs → lexLt as bs = true := by
  intro as
  induction as with
  | nil =>
    intro bs _ hne
    cases bs with
    | nil => exact absurd rfl hne
    | cons b bs => rfl
  | cons a as ih =>
    intro bs h1 hne
    cases bs with
    | nil => exact absurd h1 (by simp [lexLe])
    | cons b bs =>
      by_cases hab : a.toNat = b.toNat
      · rw [lexLe, if_pos hab] at h1
        have hne' : as ≠ bs := fun h => hne (by rw [char_toNat_inj hab, h])
        rw [lexLt, if_pos hab]
        exact ih bs h1 hne'
      · rw [lexLe, if_neg hab] at h1
        rw [lexLt, if_neg hab]
        exact h1

theorem strLe_total (a b : String) : strLe a b = true ∨ strLe b a = true :=
  lexLe_total a.data b.data

theorem strLe_trans {a b c : String} (h1 : strLe a b = true) (h2 : strLe b c = true) :
    strLe a c = true :=
  lexLe_trans a.data b.data c.data h1 h2

theorem strLe_antisymm {a b : String} (h1 : strLe a b = true) (h2 : strLe b a = true) :
    a = b :=
  string_data_inj (lexLe_antisymm a.data b.data h1 h2)

theorem strLt_of_le_of_ne {a b : String} (h1 : strLe a b = true) (hne : a ≠ b) :
    strLt a b = true :=
  lexLt_of_le_of_ne a.data b.data h1 (fun hd => hne (string_data_inj hd))

theorem valLe_total : ∀ (a b : Val), valLe a b = true ∨ valLe b a = true
  | .int m, .int n => by
    simp only [valLe, decide_eq_true_eq]
    omega
  | .int _, .str _ => Or.inl rfl
  | .str _, .int _ => Or.inr rfl
  | .str s, .str t => strLe_total s t

theorem valLe_trans : ∀ (a b c : Val), valLe a b = true → valLe b c = true → valLe a c = true
  | .int m, .int n, .int k, h1, h2 => by
    simp only [valLe, decide_eq_true_eq] at h1 h2 ⊢
    omega
  | .int _, .int _, .str _, _, _ => rfl
  | .int _, .str _, .int _, _, h2 => absurd h2 (by simp [valLe])
  | .int _, .str _, .str _, _, _ => rfl
  | .str _, .int _, _, h1, _ => absurd h1 (by simp [valLe])
  | .str _, .str _, .int _, _, h2 => absurd h2 (by simp [valLe])
  | .str s, .str t, .str u, h1, h2 => strLe_trans h1 h2

theorem valLe_antisymm : ∀ (a b : Val), valLe a b = true → valLe b a = true → a = b
  | .int m, .int n, h1, h2 => by
    simp only [valLe, decide_eq_true_eq] at h1 h2
    rw [Int.le_antisymm h1 h2]
  | .int _, .str _, _, h2 => absurd h2 (by simp [valLe])
  | .str _, .int _, h1, _ => absurd h1 (by simp [valLe])
  | .str s, .str t, h1, h2 => by rw [strLe_antisymm h1 h2]

theorem cellLe_total : ∀ (a b : Cell), cellLe a b = true ∨ cellLe b a = true
  | none, none => Or.inl rfl
  | none, some _ => Or.inr rfl
  | some _, none => Or.inl rfl
  | some x, some y => valLe_total x y

theorem cellLe_trans : ∀ (a b c : Cell), cellLe a b = true → cellLe b c = true → cellLe a c = true
  | none, none, _, _, h2 => h2
  | none, some _, _, h1, _ => absurd h1 (by simp [cellLe])
  | some _, none, none, _, _ => rfl
  | some _, none, some _, _, h2 => absurd h2 (by simp [cellLe])
  | some _, some _, none, _, _ => rfl
  | some x, some y, some z, h1, h2 => valLe_trans x y z h1 h2

theorem cellLe_antisymm : ∀ (a b : Cell), cellLe a b = true → cellLe b a = true → a = b
  | none, none, _, _ => rfl
  | none, some _, h1, _ => absurd h1 (by simp [cellLe])
  | some _, none, _, h2 => absurd h2 (by simp [cellLe])
  | some x, some y, h1, h2 => by rw [valLe_antisymm x y h1 h2]

theorem rowLe_total (r1 r2 : Row) : rowLe r1 r2 = true ∨ rowLe r2 r1 = true := by
  by_cases h : r1 "iso3" = r2 "iso3"
  · rw [rowLe, if_pos h, rowLe, if_pos h.symm]
    exact cellLe_total _ _
  · rw [rowLe, if_neg h, rowLe, if_neg (fun hh => h hh.symm)]
    exact cellLe_total _ _

theorem rowLe_trans (a b c : Row) (h1 : rowLe a b = true) (h2 : rowLe b c = true) :
    rowLe a c = true := by
  by_cases hab : a "iso3" = b "iso3" <;> by_cases hbc : b "iso3" = c "iso3"
  · rw [rowLe, if_pos (hab.trans hbc)]
    rw [rowLe, if_pos hab] at h1
    rw [rowLe, if_pos hbc] at h2
    exact cellLe_trans _ _ _ h1 h2
  · rw [rowLe, if_neg (fun h : a "iso3" = c "iso3" => hbc (hab.symm.trans h))]
    rw [rowLe, if_neg hbc] at h2
    rw [hab]
    exact h2
  · rw [rowLe, if_neg (fun h : a "iso3" = c "iso3" => hab (h.trans hbc.symm))]
    rw [rowLe, if_neg hab] at h1
    rw [← hbc]
    exact h1
  · rw [rowLe, if_neg hab] at h1
    rw [rowLe, if_neg hbc] at h2
    have hne : a "iso3" ≠ c "iso3" := by
      intro he
      exact hab (cellLe_antisymm _ _ h1 (he ▸ h2))
    rw [rowLe, if_neg hne]
    exact cellLe_trans _ _ _ h1 h2

theorem fill_apply_isSome (r : Row) (c : String) (hcc : final_columns.contains c = true)
    (hs : (r c).isSome = true) :
    (fun x => if final_columns.contains x then
        match r x with | none => some (Val.str "") | some v => some v
      else r x) c = r c := by
  rw [fill_apply r c hcc]
  cases hrc : r c with
  | none => rw [hrc] at hs; exact absurd hs (by simp)
  | some v => rfl

theorem fillRow_rowLe_eq (x y : Row)
    (hx3 : (x "iso3").isSome = true) (hxy : (x "year").isSome = true)
    (hy3 : (y "iso3").isSome = true) (hyy : (y "year").isSome = true) :
    rowLe (fun c => if final_columns.contains c then
        match x c with | none => some (Val.str "") | some v => some v
      else x c)
      (fun c => if final_columns.contains c then
        match y c with | none => some (Val.str "") | some v => some v
      else y c)
    = rowLe x y := by
  simp only [rowLe]
  rw [fillRow_of_isSome x "iso3" hx3, fillRow_of_isSome x "year" hxy,
    fillRow_of_isSome y "iso3" hy3, fillRow_of_isSome y "year" hyy]

theorem combRows_keys_isSome (df_new df_old : Table)
    (hkA : keysPresent (prep_new df_new)) (hkB : keysPresent (prep_old df_old)) :
    ∀ x ∈ (mergeOuter (prep_old df_old) (prep_new df_new) ["iso3", "year"]).rows.map
        (fun r => final_columns.foldl (fun r c => combRowStep c r) r),
      (x "iso3").isSome = true ∧ (x "year").isSome = true := by
  intro x hx
  obtain ⟨m, hm, rfl⟩ := List.mem_map.mp hx
  obtain ⟨r0, hro, h3, hy⟩ := merge_rows_key_origin rfl rfl m hm
  have c3 : (final_columns.foldl (fun r c => combRowStep c r) m) "iso3" = m "iso3" :=
    combFold_keyCol _ _ _ (Or.inl rfl)
  have cy : (final_columns.foldl (fun r c => combRowStep c r) m) "year" = m "year" :=
    combFold_keyCol _ _ _ (Or.inr rfl)
  rcases hro with h | h
  · exact ⟨by rw [c3, h3]; exact (hkB r0 h).1, by rw [cy, hy]; exact (hkB r0 h).2⟩
  · exact ⟨by rw [c3, h3]; exact (hkA r0 h).1, by rw [cy, hy]; exact (hkA r0 h).2⟩

theorem reconcile_sorted (df_new df_old : Table)
    (hkA : keysPresent (prep_new df_new)) (hkB : keysPresent (prep_old df_old)) :
    (reconcile df_new df_old).rows.Pairwise (fun r1 r2 => rowLe r1 r2 = true) := by
  rw [reconcile_rows, List.pairwise_map]
  have hsorted : (List.insertionSort (fun a b => rowLe a b = true)
      ((mergeOuter (prep_old df_old) (prep_new df_new) ["iso3", "year"]).rows.map
        (fun r => final_columns.foldl (fun r c => combRowStep c r) r))).Pairwise
      (fun a b => rowLe a b = true) := by
    haveI h1 : IsTotal Row (fun a b => rowLe a b = true) := ⟨rowLe_total⟩
    haveI h2 : IsTrans Row (fun a b => rowLe a b = true) := ⟨rowLe_trans⟩
    exact List.sorted_insertionSort _ _
  refine hsorted.imp_of_mem ?_
  intro a b ha hb hab
  rw [List.mem_insertionSort] at ha hb
  have hka := combRows_keys_isSome df_new df_old hkA hkB a ha
  have hkb := combRows_keys_isSome df_new df_old hkA hkB b hb
  rw [fillRow_rowLe_eq a b hka.1 hka.2 hkb.1 hkb.2]
  exact hab

/-! ### Further helper lemmas for the claims -/

theorem keysPresent_of_typed {t : Table} (h : keysTyped t) : keysPresent t := by
  intro r hr
  obtain ⟨h3, hy⟩ := h r hr
  constructor
  · cases hc : r "iso3" with
    | none => rw [hc] at h3; exact absurd h3 (by simp [isStrCell])
    | some v => simp
  · cases hc : r "year" with
    | none => rw [hc] at hy; exact absurd hy (by simp [isIntCell])
    | some v => simp

theorem isStrCell_spec : ∀ {c : Cell}, isStrCell c = true → ∃ a, c = some (.str a)
  | some (.str a), _ => ⟨a, rfl⟩
  | none, h => absurd h (by simp [isStrCell])
  | some (.int _), h => absurd h (by simp [isStrCell])

theorem isIntCell_spec : ∀ {c : Cell}, isIntCell c = true → ∃ n, c = some (.int n)
  | some (.int n), _ => ⟨n, rfl⟩
  | none, h => absurd h (by simp [isIntCell])
  | some (.str _), h => absurd h (by simp [isIntCell])

theorem reconcile_keys_nodup (df_new df_old : Table)
    (hAnd : ((prep_new df_new).rows.map (keyList ["iso3", "year"])).Nodup)
    (hBnd : ((prep_old df_old).rows.map (keyList ["iso3", "year"])).Nodup)
    (hkA : keysPresent (prep_new df_new)) (hkB : keysPresent (prep_old df_old)) :
    ((reconcile df_new df_old).rows.map (keyList ["iso3", "year"])).Nodup := by
  apply (reconcile_keys_perm df_new df_old hAnd hkA hkB).nodup_iff.mpr
  rw [List.nodup_append]
  refine ⟨hBnd, ((List.filter_sublist _).map _).nodup hAnd, ?_⟩
  intro k hkOld hkNew
  obtain ⟨lr, hlr, rfl⟩ := List.mem_map.mp hkOld
  obtain ⟨rr, hrr2, hkeq⟩ := List.mem_map.mp hkNew
  have hf := List.mem_filter.mp hrr2
  have hmem : lr ∈ (prep_old df_old).rows.filter (fun lr0 =>
      keyList ["iso3", "year"] lr0 == keyList ["iso3", "year"] rr) :=
    List.mem_filter.mpr ⟨hlr, by rw [hkeq]; simp⟩
  rw [List.isEmpty_iff.mp hf.2] at hmem
  cases hmem

theorem reconcile_keys_typed (df_new df_old : Table)
    (hkAt : keysTyped (prep_new df_new)) (hkBt : keysTyped (prep_old df_old)) :
    ∀ r ∈ (reconcile df_new df_old).rows,
      isStrCell (r "iso3") = true ∧ isIntCell (r "year") = true := by
  intro r hr
  obtain ⟨m, hm, hre, h3, hy⟩ := reconcile_mem_origin df_new df_old
    (keysPresent_of_typed hkAt) (keysPresent_of_typed hkBt) r hr
  obtain ⟨r0, hro, m3, my⟩ := merge_rows_key_origin rfl rfl m hm
  rcases hro with h | h
  · exact ⟨by rw [h3, m3]; exact (hkBt r0 h).1, by rw [hy, my]; exact (hkBt r0 h).2⟩
  · exact ⟨by rw [h3, m3]; exact (hkAt r0 h).1, by rw [hy, my]; exact (hkAt r0 h).2⟩

/-! ### Claim theorems -/

/-- C1: Conflict-resolution precedence.  For every row of the reconciled
output (one per `(iso3, year)` key) and every canonical column other than
the join key, the output value is source A's (new) value when A holds a
non-missing value for that key, otherwise source B's (old) value when B
holds one, otherwise the missing marker (rendered as the empty string by
the finalization step).  Stated for sources whose prepared frames have
unique, non-missing `(iso3, year)` keys, as the data model requires. -/
theorem merge_precedence_new_over_old (df_new df_old : Table)
    (hAnd : ((prep_new df_new).rows.map (keyList ["iso3", "year"])).Nodup)
    (hBnd : ((prep_old df_old).rows.map (keyList ["iso3", "year"])).Nodup)
    (hkA : keysPresent (prep_new df_new)) (hkB : keysPresent (prep_old df_old))
    (c : String) (hc : c ∈ final_columns) (hkey : (["iso3", "year"].contains c) = false) :
    ∀ r ∈ (reconcile df_new df_old).rows,
      r c = match valueOf (prep_new df_new) (keyList ["iso3", "year"] r) c with
            | some v => some v
            | none =>
              match valueOf (prep_old df_old) (keyList ["iso3", "year"] r) c with
              | some w => some w
              | none => some (Val.str "") :=
  reconcile_value df_new df_old hAnd hBnd hkA hkB c hc hkey

set_option maxRecDepth 10000 in
/-- Witness for C1 at the concrete sample tables, on the column
`incidence_rate` where the new source holds 200 and the old holds 150 for
(IND, 2005), and only the old source holds 300 for (IND, 1995). -/
theorem merge_precedence_witness :
    (((prep_new dfNewT).rows.map (keyList ["iso3", "year"])).Nodup ∧
     ((prep_old dfOldT).rows.map (keyList ["iso3", "year"])).Nodup ∧
     keysPresent (prep_new dfNewT) ∧ keysPresent (prep_old dfOldT) ∧
     "incidence_rate" ∈ final_columns ∧
     (["iso3", "year"].contains "incidence_rate") = false) ∧
    (∀ r ∈ (reconcile dfNewT dfOldT).rows,
      r "incidence_rate" =
        match valueOf (prep_new dfNewT) (keyList ["iso3", "year"] r) "incidence_rate" with
        | some v => some v
        | none =>
          match valueOf (prep_old dfOldT) (keyList ["iso3", "year"] r) "incidence_rate" with
          | some w => some w
          | none => some (Val.str "")) :=
  ⟨⟨by decide, by decide, by decide, by decide, by decide, by decide⟩,
   merge_precedence_new_over_old dfNewT dfOldT (by decide) (by decide) (by decide) (by decide)
     "incidence_rate" (by decide) (by decide)⟩

/-- C4: Year-coercion failure is fatal and atomic.  If either source file
holds a year value (in its own year column, `year` for csv1 and `Year`
for csv2) that is missing or not integer-coercible, the whole operation
fails: no rows are skipped and no `(table, output-file)` pair is ever
produced, so no output artifact exists. -/
theorem year_parse_fatal (csv1 csv2 : RawTable)
    (h : (csv1.cols.contains "year" = true ∧
            ∃ r ∈ csv1.rows, intCoercible (r "year") = false)
       ∨ (csv2.cols.contains "Year" = true ∧
            ∃ r ∈ csv2.rows, intCoercible (r "Year") = false)) :
    ∀ out, merge_tb_data csv1 csv2 ≠ Except.ok out := by
  intro out hok
  cases h1 : load "year" csv1 with
  | error e =>
    simp only [merge_tb_data, h1, bind, Except.bind] at hok
    exact Except.noConfusion hok
  | ok d1 =>
    cases h2 : load "Year" csv2 with
    | error e =>
      simp only [merge_tb_data, h1, h2, bind, Except.bind] at hok
      exact Except.noConfusion hok
    | ok d2 =>
      rcases h with ⟨hy, r, hr, hbad⟩ | ⟨hy, r, hr, hbad⟩
      · rw [load_ok_coercible h1 hy r hr] at hbad
        exact Bool.noConfusion hbad
      · rw [load_ok_coercible h2 hy r hr] at hbad
        exact Bool.noConfusion hbad

/-- Witness for C4: the file with year field "two-thousand" makes the
whole operation fail. -/
theorem year_parse_fatal_witness :
    (csvNewBadYear.cols.contains "year" = true ∧
       ∃ r ∈ csvNewBadYear.rows, intCoercible (r "year") = false) ∧
    (∀ out, merge_tb_data csvNewBadYear csvOldSample ≠ Except.ok out) :=
  ⟨⟨by decide, by decide⟩,
   year_parse_fatal csvNewBadYear csvOldSample (Or.inl ⟨by decide, by decide⟩)⟩

/-- C5: Column fidelity.  Whenever the operation succeeds, the output
table's columns are exactly the canonical `final_columns`, in order, and
the persisted file begins with exactly that header line — regardless of
the input files' column order and of extra or unmapped input columns,
which are dropped silently. -/
theorem column_fidelity (csv1 csv2 : RawTable) (t : Table) (s : String)
    (h : merge_tb_data csv1 csv2 = Except.ok (t, s)) :
    t.cols = final_columns ∧ ∃ body, s = csvLine final_columns ++ "\n" ++ body := by
  cases h1 : load "year" csv1 with
  | error e =>
    simp only [merge_tb_data, h1, bind, Except.bind] at h
    exact Except.noConfusion h
  | ok d1 =>
    cases h2 : load "Year" csv2 with
    | error e =>
      simp only [merge_tb_data, h1, h2, bind, Except.bind] at h
      exact Except.noConfusion h
    | ok d2 =>
      simp only [merge_tb_data, h1, h2, bind, Except.bind, pure, Except.pure,
        Except.ok.injEq, Prod.mk.injEq] at h
      obtain ⟨ht, hs⟩ := h
      constructor
      · rw [← ht]
        exact reconcile_cols d1 d2
      · refine ⟨String.join ((reconcile d1 d2).rows.map (fun r =>
          csvLine ((reconcile d1 d2).cols.map (fun c => escapeField (renderCell (r c)))) ++ "\n")), ?_⟩
        rw [← hs, toCsv, reconcile_cols d1 d2]
        rw [show final_columns.map escapeField = final_columns from by decide]

set_option maxRecDepth 10000 in
/-- Witness for C5 at concrete inputs that contain an extra unmapped
column and differently ordered headers. -/
theorem column_fidelity_witness :
    ∃ t s, merge_tb_data csvNewSample csvOldSample = Except.ok (t, s) ∧
      (t.cols = final_columns ∧ ∃ body, s = csvLine final_columns ++ "\n" ++ body) :=
  ⟨_, _, rfl, column_fidelity csvNewSample csvOldSample _ _ rfl⟩

/-- C9: Determinism.  The operation is a pure function of its inputs: on
equal input files it produces equal results, including byte-identical
output file contents. -/
theorem reconcile_deterministic (a1 b1 a2 b2 : RawTable)
    (h1 : a1 = a2) (h2 : b1 = b2) :
    merge_tb_data a1 b1 = merge_tb_data a2 b2 := by
  rw [h1, h2]

/-- Witness for C9 at the concrete sample inputs. -/
theorem reconcile_deterministic_witness :
    csvNewSample = csvNewSample ∧ csvOldSample = csvOldSample ∧
    merge_tb_data csvNewSample csvOldSample = merge_tb_data csvNewSample csvOldSample :=
  ⟨rfl, rfl, reconcile_deterministic csvNewSample csvOldSample csvNewSample csvOldSample rfl rfl⟩

/-- C10: Exact, case-sensitive header matching.  A header that is not
literally a key of the fixed mapping is left unchanged by the rename, and
when as a result no column of the frame maps to `year`, the padding step
adds a `year` column filled entirely with the missing marker — the alias
is neither recognized nor reported as an error. -/
theorem exact_header_matching (m : List (String × String))
    (_hm : m = column_mapping_new ∨ m = column_mapping_old)
    (t : Table) (c : String) (hc : m.lookup c = none)
    (hy : "year" ∉ t.cols.map (mapName m)) :
    mapName m c = c ∧
    (pad (rename m t)).cols.contains "year" = true ∧
    ∀ r ∈ (pad (rename m t)).rows, r "year" = none := by
  have hmiss : (rename m t).cols.contains "year" = false := by
    cases hcc : (rename m t).cols.contains "year" with
    | false => rfl
    | true =>
      rw [contains_mem] at hcc
      exact absurd (by simpa [rename] using hcc) hy
  have hp := pad_fold_missing final_columns "year" (rename m t) (by decide) hmiss
  exact ⟨by rw [mapName, hc], hp.1, hp.2⟩

/-- Witness for C10: the header `YEAR` (wrong case) is not renamed by the
new-source mapping, and the padded frame's `year` column is all-missing. -/
theorem exact_header_matching_witness :
    ((column_mapping_new = column_mapping_new ∨ column_mapping_new = column_mapping_old) ∧
     column_mapping_new.lookup "YEAR" = none ∧
     "year" ∉ dfYearCase.cols.map (mapName column_mapping_new)) ∧
    (mapName column_mapping_new "YEAR" = "YEAR" ∧
     (pad (rename column_mapping_new dfYearCase)).cols.contains "year" = true ∧
     ∀ r ∈ (pad (rename column_mapping_new dfYearCase)).rows, r "year" = none) :=
  ⟨⟨Or.inl rfl, by decide, by decide⟩,
   exact_header_matching column_mapping_new (Or.inl rfl) dfYearCase "YEAR"
     (by decide) (by decide)⟩

set_option maxRecDepth 10000 in
/-- C2 counterexample: with two rows of the new source sharing the key
(IND, 2005) (and an empty old source), the operation succeeds and the
output contains two rows with the same `(iso3, year)` pair — the claimed
universal key uniqueness fails for inputs with duplicate keys. -/
theorem outer_join_key_uniqueness_cex :
    ∃ t s, merge_tb_data csvNewDup csvOldNoRows = Except.ok (t, s) ∧
      ¬ ((t.rows.map (keyList ["iso3", "year"])).Nodup) :=
  ⟨_, _, rfl, by decide⟩

/-- C2 amended: for sources whose prepared frames have unique, non-missing
`(iso3, year)` keys — as the data model's "rows keyed by (iso3, year)"
requires — the output has exactly one row per key: its key list is
duplicate-free and a key occurs in the output exactly when it occurs in
source A or in source B. -/
theorem outer_join_keys_amended (df_new df_old : Table)
    (hAnd : ((prep_new df_new).rows.map (keyList ["iso3", "year"])).Nodup)
    (hBnd : ((prep_old df_old).rows.map (keyList ["iso3", "year"])).Nodup)
    (hkA : keysPresent (prep_new df_new)) (hkB : keysPresent (prep_old df_old)) :
    ((reconcile df_new df_old).rows.map (keyList ["iso3", "year"])).Nodup ∧
    ∀ k, (k ∈ (reconcile df_new df_old).rows.map (keyList ["iso3", "year"]) ↔
      (k ∈ (prep_new df_new).rows.map (keyList ["iso3", "year"]) ∨
       k ∈ (prep_old df_old).rows.map (keyList ["iso3", "year"]))) := by
  refine ⟨reconcile_keys_nodup df_new df_old hAnd hBnd hkA hkB, ?_⟩
  intro k
  rw [(reconcile_keys_perm df_new df_old hAnd hkA hkB).mem_iff]
  constructor
  · intro h
    rcases List.mem_append.mp h with h | h
    · exact Or.inr h
    · obtain ⟨rr, hrr, rfl⟩ := List.mem_map.mp h
      exact Or.inl (List.mem_map.mpr ⟨rr, (List.mem_filter.mp hrr).1, rfl⟩)
  · intro h
    rcases h with h | h
    · obtain ⟨rr, hrr, rfl⟩ := List.mem_map.mp h
      cases hemp : ((prep_old df_old).rows.filter (fun lr =>
          keyList ["iso3", "year"] lr == keyList ["iso3", "year"] rr)).isEmpty with
      | true =>
        exact List.mem_append.mpr (Or.inr
          (List.mem_map.mpr ⟨rr, List.mem_filter.mpr ⟨hrr, hemp⟩, rfl⟩))
      | false =>
        refine List.mem_append.mpr (Or.inl ?_)
        have hne : ((prep_old df_old).rows.filter (fun lr =>
            keyList ["iso3", "year"] lr == keyList ["iso3", "year"] rr)) ≠ [] := by
          intro hnil
          rw [hnil] at hemp
          exact Bool.noConfusion hemp
        obtain ⟨lr, hlr⟩ := List.exists_mem_of_ne_nil _ hne
        have hf := List.mem_filter.mp hlr
        exact List.mem_map.mpr ⟨lr, hf.1, beq_iff_eq.mp hf.2⟩
    · exact List.mem_append.mpr (Or.inl h)

set_option maxRecDepth 10000 in
/-- Witness for the amended C2 at the concrete sample tables. -/
theorem outer_join_keys_witness :
    (((prep_new dfNewT).rows.map (keyList ["iso3", "year"])).Nodup ∧
     ((prep_old dfOldT).rows.map (keyList ["iso3", "year"])).Nodup ∧
     keysPresent (prep_new dfNewT) ∧ keysPresent (prep_old dfOldT)) ∧
    (((reconcile dfNewT dfOldT).rows.map (keyList ["iso3", "year"])).Nodup ∧
     ∀ k, (k ∈ (reconcile dfNewT dfOldT).rows.map (keyList ["iso3", "year"]) ↔
       (k ∈ (prep_new dfNewT).rows.map (keyList ["iso3", "year"]) ∨
        k ∈ (prep_old dfOldT).rows.map (keyList ["iso3", "year"])))) :=
  ⟨⟨by decide, by decide, by decide, by decide⟩,
   outer_join_keys_amended dfNewT dfOldT (by decide) (by decide) (by decide) (by decide)⟩

/-- C7: Missing-value finalization.  Every cell of every canonical column
of the reconciled output is non-missing (the `fillna('')` step leaves no
missing marker before persistence), and a non-key canonical column that
neither source holds a value for at a given key appears as the empty
string in that key's output row. -/
theorem missing_value_finalization (df_new df_old : Table)
    (hAnd : ((prep_new df_new).rows.map (keyList ["iso3", "year"])).Nodup)
    (hBnd : ((prep_old df_old).rows.map (keyList ["iso3", "year"])).Nodup)
    (hkA : keysPresent (prep_new df_new)) (hkB : keysPresent (prep_old df_old)) :
    (∀ r ∈ (reconcile df_new df_old).rows, ∀ c ∈ final_columns, (r c).isSome = true) ∧
    (∀ r ∈ (reconcile df_new df_old).rows, ∀ c ∈ final_columns,
      (["iso3", "year"].contains c) = false →
      valueOf (prep_new df_new) (keyList ["iso3", "year"] r) c = none →
      valueOf (prep_old df_old) (keyList ["iso3", "year"] r) c = none →
      r c = some (Val.str "")) := by
  constructor
  · intro r hr c hc
    rw [reconcile_rows] at hr
    obtain ⟨r1, _, rfl⟩ := List.mem_map.mp hr
    rw [fill_apply r1 c (contains_mem.mpr hc)]
    cases r1 c <;> simp
  · intro r hr c hc hkey hvA hvB
    have hval := reconcile_value df_new df_old hAnd hBnd hkA hkB c hc hkey r hr
    rw [hvA, hvB] at hval
    exact hval

set_option maxRecDepth 10000 in
/-- Witness for C7 at the concrete sample tables. -/
theorem missing_value_finalization_witness :
    (((prep_new dfNewT).rows.map (keyList ["iso3", "year"])).Nodup ∧
     ((prep_old dfOldT).rows.map (keyList ["iso3", "year"])).Nodup ∧
     keysPresent (prep_new dfNewT) ∧ keysPresent (prep_old dfOldT)) ∧
    ((∀ r ∈ (reconcile dfNewT dfOldT).rows, ∀ c ∈ final_columns, (r c).isSome = true) ∧
     (∀ r ∈ (reconcile dfNewT dfOldT).rows, ∀ c ∈ final_columns,
       (["iso3", "year"].contains c) = false →
       valueOf (prep_new dfNewT) (keyList ["iso3", "year"] r) c = none →
       valueOf (prep_old dfOldT) (keyList ["iso3", "year"] r) c = none →
       r c = some (Val.str ""))) :=
  ⟨⟨by decide, by decide, by decide, by decide⟩,
   missing_value_finalization dfNewT dfOldT (by decide) (by decide) (by decide) (by decide)⟩

set_option maxRecDepth 10000 in
/-- C8 counterexample: with an old source lacking any iso3-mappable
column, reconcile succeeds and the persisted output holds a row whose
`iso3` key column is the empty-string replacement — the key columns are
not always protected from empty-filling. -/
theorem key_columns_cex :
    ∃ t s, merge_tb_data csvNewC8 csvOldNoIso3b = Except.ok (t, s) ∧
      (t.rows.any (fun r => r "iso3" == some (Val.str "")) = true) :=
  ⟨_, _, rfl, by decide⟩

/-- C8 amended: when every row of both prepared sources carries
non-missing `(iso3, year)` key cells, every output row's key cells are
taken verbatim from some source row and are non-missing — they are never
produced by the missing-marker/empty-string fill. -/
theorem key_columns_amended (df_new df_old : Table)
    (hkA : keysPresent (prep_new df_new)) (hkB : keysPresent (prep_old df_old)) :
    ∀ r ∈ (reconcile df_new df_old).rows,
      ∃ r0, (r0 ∈ (prep_old df_old).rows ∨ r0 ∈ (prep_new df_new).rows) ∧
        r "iso3" = r0 "iso3" ∧ r "year" = r0 "year" ∧
        (r0 "iso3").isSome = true ∧ (r0 "year").isSome = true := by
  intro r hr
  obtain ⟨m, hm, hre, h3, hy⟩ := reconcile_mem_origin df_new df_old hkA hkB r hr
  obtain ⟨r0, hro, m3, my⟩ := merge_rows_key_origin rfl rfl m hm
  rcases hro with h | h
  · exact ⟨r0, Or.inl h, h3.trans m3, hy.trans my, (hkB r0 h).1, (hkB r0 h).2⟩
  · exact ⟨r0, Or.inr h, h3.trans m3, hy.trans my, (hkA r0 h).1, (hkA r0 h).2⟩

set_option maxRecDepth 10000 in
/-- Witness for the amended C8 at the concrete sample tables. -/
theorem key_columns_witness :
    (keysPresent (prep_new dfNewT) ∧ keysPresent (prep_old dfOldT)) ∧
    (∀ r ∈ (reconcile dfNewT dfOldT).rows,
      ∃ r0, (r0 ∈ (prep_old dfOldT).rows ∨ r0 ∈ (prep_new dfNewT).rows) ∧
        r "iso3" = r0 "iso3" ∧ r "year" = r0 "year" ∧
        (r0 "iso3").isSome = true ∧ (r0 "year").isSome = true) :=
  ⟨⟨by decide, by decide⟩, key_columns_amended dfNewT dfOldT (by decide) (by decide)⟩

/-- C6: Sort order.  For sources with unique, typed keys (string `iso3`,
integer `year`), the output rows are strictly ordered: for any two rows
in output order, either the first's `iso3` is lexicographically smaller
(by code points, as Python compares strings), or the `iso3` keys are
equal and the first's `year` is strictly smaller.  In particular rows
with smaller `iso3` always precede, and within one `iso3` the years
ascend; with unique keys this ordering is total. -/
theorem sort_order_lex (df_new df_old : Table)
    (hAnd : ((prep_new df_new).rows.map (keyList ["iso3", "year"])).Nodup)
    (hBnd : ((prep_old df_old).rows.map (keyList ["iso3", "year"])).Nodup)
    (hkAt : keysTyped (prep_new df_new)) (hkBt : keysTyped (prep_old df_old)) :
    (reconcile df_new df_old).rows.Pairwise (fun r1 r2 =>
      strLt (getStr (r1 "iso3")) (getStr (r2 "iso3")) = true ∨
      (r1 "iso3" = r2 "iso3" ∧ getInt (r1 "year") < getInt (r2 "year"))) := by
  have hkA := keysPresent_of_typed hkAt
  have hkB := keysPresent_of_typed hkBt
  have hsort := reconcile_sorted df_new df_old hkA hkB
  have hnodup := reconcile_keys_nodup df_new df_old hAnd hBnd hkA hkB
  have htyped := reconcile_keys_typed df_new df_old hkAt hkBt
  have hne : (reconcile df_new df_old).rows.Pairwise
      (fun r1 r2 => keyList ["iso3", "year"] r1 ≠ keyList ["iso3", "year"] r2) :=
    List.pairwise_map.mp hnodup
  refine (hsort.and hne).imp_of_mem ?_
  intro a b ha hb hab
  obtain ⟨hle, hkne⟩ := hab
  obtain ⟨sa, hsa⟩ := isStrCell_spec (htyped a ha).1
  obtain ⟨sb, hsb⟩ := isStrCell_spec (htyped b hb).1
  obtain ⟨na, hna⟩ := isIntCell_spec (htyped a ha).2
  obtain ⟨nb, hnb⟩ := isIntCell_spec (htyped b hb).2
  by_cases h33 : a "iso3" = b "iso3"
  · right
    refine ⟨h33, ?_⟩
    rw [rowLe, if_pos h33] at hle
    rw [hna, hnb] at hle
    have hlena : na ≤ nb := by
      simpa [cellLe, valLe, decide_eq_true_eq] using hle
    have hney : na ≠ nb := by
      intro heq
      apply hkne
      simp only [keyList, List.map_cons, List.map_nil]
      rw [h33, hna, hnb, heq]
    rw [hna, hnb]
    simp only [getInt]
    omega
  · left
    rw [rowLe, if_neg h33] at hle
    rw [hsa, hsb] at hle
    have hlesab : strLe sa sb = true := by
      simpa [cellLe, valLe] using hle
    have hnesab : sa ≠ sb := by
      intro heq
      apply h33
      rw [hsa, hsb, heq]
    rw [hsa, hsb]
    simp only [getStr]
    exact strLt_of_le_of_ne hlesab hnesab

set_option maxRecDepth 10000 in
/-- Witness for C6 at the concrete sample tables. -/
theorem sort_order_lex_witness :
    (((prep_new dfNewT).rows.map (keyList ["iso3", "year"])).Nodup ∧
     ((prep_old dfOldT).rows.map (keyList ["iso3", "year"])).Nodup ∧
     keysTyped (prep_new dfNewT) ∧ keysTyped (prep_old dfOldT)) ∧
    ((reconcile dfNewT dfOldT).rows.Pairwise (fun r1 r2 =>
      strLt (getStr (r1 "iso3")) (getStr (r2 "iso3")) = true ∨
      (r1 "iso3" = r2 "iso3" ∧ getInt (r1 "year") < getInt (r2 "year")))) :=
  ⟨⟨by decide, by decide, by decide, by decide⟩,
   sort_order_lex dfNewT dfOldT (by decide) (by decide) (by decide) (by decide)⟩
